import Mathlib

/-!
Verification of the wound-report record resolver.

This file shallowly embeds the data model and the record
deduplication / stage-classification / filtering logic of the
application (the WoundReport interface from types.ts and the
functions isMatchingStage and processedReports from App.tsx),
and proves the specified properties about them.

JavaScript string operations are modelled on ASCII data:
toLowerCase is character-wise lowering, includes is substring
containment, trim strips whitespace from both ends.
-/

/-- One clinical observation snapshot (the WoundReport interface of
types.ts).  createdAt is an epoch-milliseconds timestamp. -/
structure WoundReport where
  id : String
  patientName : String
  roomNo : String
  dateOfDiscovery : String
  facHosp : String
  typeStage : String
  isNoStage : Bool
  site : String
  colorDrainage : String
  undermining : String
  week1 : String
  week2 : String
  week3 : String
  week4 : String
  currentTreatment : String
  comment : String
  createdAt : Nat
deriving DecidableEq, Repr

/-- Model of JavaScript String.prototype.toLowerCase (character-wise). -/
def jsToLower (s : String) : String :=
  String.mk (s.data.map Char.toLower)

/-- Model of JavaScript String.prototype.trim: strip whitespace from
both ends. -/
def jsTrim (s : String) : String :=
  String.mk (((s.data.dropWhile Char.isWhitespace).reverse.dropWhile
    Char.isWhitespace).reverse)

/-- Does the character list start with the given pattern? -/
def hasPrefixL : List Char → List Char → Bool
  | _, [] => true
  | [], _ :: _ => false
  | a :: l, b :: p => (a == b) && hasPrefixL l p

/-- Does the character list contain the pattern as a contiguous run? -/
def hasInfixL : List Char → List Char → Bool
  | [], pat => pat.isEmpty
  | a :: l, pat => hasPrefixL (a :: l) pat || hasInfixL l pat

/-- Model of JavaScript String.prototype.includes: does s contain pat? -/
def jsIncludes (s pat : String) : Bool :=
  hasInfixL s.toList pat.toList

/-- The isAnyStage local of isMatchingStage in App.tsx, over the
lowercased stage label: the label names one of the recognized
pressure-ulcer categories. -/
def isAnyStage (s : String) : Bool :=
  jsIncludes s "stage 1" || jsIncludes s "stage i" ||
  jsIncludes s "stage 2" || jsIncludes s "stage ii" ||
  jsIncludes s "stage 3" || jsIncludes s "stage iii" ||
  jsIncludes s "stage 4" || jsIncludes s "stage iv" ||
  jsIncludes s "unstageable"

/-- Stage-bucket membership test (isMatchingStage in App.tsx). -/
def isMatchingStage (r : WoundReport) (stage : String) : Bool :=
  let s := jsToLower r.typeStage
  if stage = "all" then true
  else if stage = "staged" then isAnyStage s && !r.isNoStage
  else if stage = "none" then r.isNoStage || !(isAnyStage s)
  else if stage = "1" then
    jsIncludes s "stage 1" || (jsIncludes s "stage i" && !(jsIncludes s "ii"))
  else if stage = "2" then jsIncludes s "stage 2" || jsIncludes s "stage ii"
  else if stage = "3" then jsIncludes s "stage 3" || jsIncludes s "stage iii"
  else if stage = "4" then jsIncludes s "stage 4" || jsIncludes s "stage iv"
  else if stage = "unstageable" then jsIncludes s "unstageable"
  else false

/-- The logical wound identity key built in processedReports:
lowercased and trimmed patient name, room number and site, joined
with a pipe separator. -/
def woundKey (r : WoundReport) : String :=
  jsTrim (jsToLower r.patientName) ++ "|" ++
  jsTrim (jsToLower r.roomNo) ++ "|" ++
  jsTrim (jsToLower r.site)

/-- Insert a report into a list kept in descending createdAt order. -/
def insertDesc (x : WoundReport) : List WoundReport → List WoundReport
  | [] => [x]
  | y :: l => if y.createdAt ≤ x.createdAt then x :: y :: l else y :: insertDesc x l

/-- Model of the JavaScript stable sort with comparator
(a, b) => b.createdAt - a.createdAt: descending by createdAt. -/
def sortDesc : List WoundReport → List WoundReport
  | [] => []
  | x :: l => insertDesc x (sortDesc l)

/-- The Map-based first-occurrence-per-key pass of processedReports:
seen holds the keys already in the map; a report whose key was seen
is dropped, otherwise it is kept and its key recorded. -/
def dedupGo (seen : List String) : List WoundReport → List WoundReport
  | [] => []
  | r :: rest =>
    if woundKey r ∈ seen then dedupGo seen rest
    else r :: dedupGo (woundKey r :: seen) rest

/-- The deduplication step of processedReports: sort all reports by
creation date descending, then keep the first report seen for each
wound key (the Map retains insertion order). -/
def dedupStage (reports : List WoundReport) : List WoundReport :=
  dedupGo [] (sortDesc reports)

/-- The search predicate of processedReports: the lowercased query
occurs in the lowercased patient name, room number, facility or site. -/
def queryMatch (r : WoundReport) (searchQuery : String) : Bool :=
  jsIncludes (jsToLower r.patientName) (jsToLower searchQuery) ||
  jsIncludes (jsToLower r.roomNo) (jsToLower searchQuery) ||
  jsIncludes (jsToLower r.facHosp) (jsToLower searchQuery) ||
  jsIncludes (jsToLower r.site) (jsToLower searchQuery)

/-- The processedReports memo of App.tsx: deduplicate to the latest
snapshot per wound, filter by search query and stage filter, and sort
the survivors by createdAt descending. -/
def processedReports (reports : List WoundReport)
    (searchQuery stageFilter : String) : List WoundReport :=
  let uniqueWounds := dedupStage reports
  sortDesc (uniqueWounds.filter
    (fun r => queryMatch r searchQuery && isMatchingStage r stageFilter))

/-- State-passing rendering of one resolution pass.  The source reads
the reports array, sorts a spread copy of it (the in-place sort touches
only the copy), and performs no assignment to the array or to any
report field, so the pass returns the output together with the store
contents, which are the input store. -/
def resolveRun (reports : List WoundReport)
    (searchQuery stageFilter : String) :
    List WoundReport × List WoundReport :=
  let copy := reports
  let sortedAll := sortDesc copy
  let uniqueWounds := dedupGo [] sortedAll
  let out := sortDesc (uniqueWounds.filter
    (fun r => queryMatch r searchQuery && isMatchingStage r stageFilter))
  (out, reports)

/-- The comparator order used by the resolver: a report sorts before
another when its creation timestamp is at least as large. -/
def laterFirst (a b : WoundReport) : Prop :=
  b.createdAt ≤ a.createdAt

/-- The substring relation in the words of the specification: the
needle occurs contiguously inside the haystack. -/
def SubstrOf (needle hay : String) : Prop :=
  ∃ p q, hay.toList = p ++ needle.toList ++ q

/-- Boolean test for the wound key of a report. -/
def keyIs (k : String) (r : WoundReport) : Bool :=
  woundKey r == k

lemma isMatchingStage_staged (r : WoundReport) :
    isMatchingStage r "staged" =
      (isAnyStage (jsToLower r.typeStage) && !r.isNoStage) := rfl

lemma isMatchingStage_none (r : WoundReport) :
    isMatchingStage r "none" =
      (r.isNoStage || !(isAnyStage (jsToLower r.typeStage))) := rfl

lemma isMatchingStage_one (r : WoundReport) :
    isMatchingStage r "1" =
      (jsIncludes (jsToLower r.typeStage) "stage 1" ||
        (jsIncludes (jsToLower r.typeStage) "stage i" &&
          !(jsIncludes (jsToLower r.typeStage) "ii"))) := rfl

lemma isMatchingStage_two (r : WoundReport) :
    isMatchingStage r "2" =
      (jsIncludes (jsToLower r.typeStage) "stage 2" ||
        jsIncludes (jsToLower r.typeStage) "stage ii") := rfl

lemma isMatchingStage_three (r : WoundReport) :
    isMatchingStage r "3" =
      (jsIncludes (jsToLower r.typeStage) "stage 3" ||
        jsIncludes (jsToLower r.typeStage) "stage iii") := rfl

lemma isMatchingStage_four (r : WoundReport) :
    isMatchingStage r "4" =
      (jsIncludes (jsToLower r.typeStage) "stage 4" ||
        jsIncludes (jsToLower r.typeStage) "stage iv") := rfl

lemma hasPrefixL_iff (p : List Char) :
    ∀ l : List Char, hasPrefixL l p = true ↔ ∃ t, l = p ++ t := by
  induction p with
  | nil =>
    intro l
    simp [hasPrefixL]
  | cons b p ih =>
    intro l
    cases l with
    | nil => simp [hasPrefixL]
    | cons a l =>
      simp only [hasPrefixL, Bool.and_eq_true, beq_iff_eq, ih l]
      constructor
      · rintro ⟨rfl, t, rfl⟩
        exact ⟨t, rfl⟩
      · rintro ⟨t, ht⟩
        rw [List.cons_append] at ht
        injection ht with h1 h2
        exact ⟨h1, t, h2⟩

lemma hasInfixL_iff : ∀ l p : List Char,
    hasInfixL l p = true ↔ ∃ s t, l = s ++ p ++ t := by
  intro l
  induction l with
  | nil =>
    intro p
    simp only [hasInfixL, List.isEmpty_iff]
    constructor
    · rintro rfl
      exact ⟨[], [], rfl⟩
    · rintro ⟨s, t, ht⟩
      rcases List.append_eq_nil.mp ht.symm with ⟨h1, h2⟩
      exact (List.append_eq_nil.mp h1).2
  | cons a l ih =>
    intro p
    simp only [hasInfixL, Bool.or_eq_true, hasPrefixL_iff, ih]
    constructor
    · rintro (⟨t, ht⟩ | ⟨s, t, ht⟩)
      · exact ⟨[], t, by simpa using ht⟩
      · exact ⟨a :: s, t, by simp [ht]⟩
    · rintro ⟨s, t, ht⟩
      cases s with
      | nil =>
        left
        exact ⟨t, by simpa using ht⟩
      | cons b s =>
        right
        rw [List.cons_append, List.cons_append] at ht
        injection ht with h1 h2
        exact ⟨s, t, by simpa using h2⟩

lemma jsIncludes_iff (s pat : String) :
    jsIncludes s pat = true ↔ SubstrOf pat s :=
  hasInfixL_iff s.toList pat.toList

lemma jsIncludes_empty (s : String) : jsIncludes s "" = true := by
  obtain ⟨data⟩ := s
  cases data <;> rfl

lemma jsIncludes_ext (s pat pat' : String) (ext : List Char)
    (hp : pat.toList = pat'.toList ++ ext) (h : jsIncludes s pat = true) :
    jsIncludes s pat' = true := by
  obtain ⟨p, q, hpq⟩ := (jsIncludes_iff s pat).mp h
  refine (jsIncludes_iff s pat').mpr ⟨p, ext ++ q, ?_⟩
  rw [hpq, hp]
  simp

lemma insertDesc_perm (x : WoundReport) (l : List WoundReport) :
    (insertDesc x l).Perm (x :: l) := by
  induction l with
  | nil => exact List.Perm.refl _
  | cons y l ih =>
    unfold insertDesc
    by_cases h : y.createdAt ≤ x.createdAt
    · rw [if_pos h]
    · rw [if_neg h]
      exact (ih.cons y).trans (List.Perm.swap x y l)

lemma sortDesc_perm (l : List WoundReport) : (sortDesc l).Perm l := by
  induction l with
  | nil => exact List.Perm.refl _
  | cons x l ih => exact (insertDesc_perm x (sortDesc l)).trans (ih.cons x)

lemma mem_sortDesc {a : WoundReport} {l : List WoundReport} :
    a ∈ sortDesc l ↔ a ∈ l :=
  (sortDesc_perm l).mem_iff

lemma insertDesc_sorted (x : WoundReport) {l : List WoundReport}
    (h : l.Pairwise laterFirst) :
    (insertDesc x l).Pairwise laterFirst := by
  induction l with
  | nil => simp [insertDesc, laterFirst]
  | cons y l ih =>
    rcases List.pairwise_cons.mp h with ⟨hy, hl⟩
    unfold insertDesc
    by_cases hc : y.createdAt ≤ x.createdAt
    · rw [if_pos hc]
      refine List.pairwise_cons.mpr ⟨?_, h⟩
      intro b hb
      rcases List.mem_cons.mp hb with rfl | hb
      · exact hc
      · exact le_trans (hy b hb) hc
    · rw [if_neg hc]
      refine List.pairwise_cons.mpr ⟨?_, ih hl⟩
      intro b hb
      rcases List.mem_cons.mp ((insertDesc_perm x l).mem_iff.mp hb) with rfl | hb
      · exact Nat.le_of_not_le hc
      · exact hy b hb

lemma sortDesc_sorted (l : List WoundReport) :
    (sortDesc l).Pairwise laterFirst := by
  induction l with
  | nil => simp [sortDesc]
  | cons x l ih => exact insertDesc_sorted x ih

lemma dedupGo_filter_of_mem (k : String) :
    ∀ (l : List WoundReport) (seen : List String), k ∈ seen →
      (dedupGo seen l).filter (keyIs k) = [] := by
  intro l
  induction l with
  | nil =>
    intro seen _
    rfl
  | cons r rest ih =>
    intro seen h
    unfold dedupGo
    by_cases hr : woundKey r ∈ seen
    · rw [if_pos hr]
      exact ih seen h
    · rw [if_neg hr]
      have hk : keyIs k r = false := by
        simp only [keyIs, beq_eq_false_iff_ne, ne_eq]
        intro he
        exact hr (he ▸ h)
      simp only [List.filter_cons, hk, Bool.false_eq_true, if_false]
      exact ih _ (List.mem_cons_of_mem _ h)

lemma dedupGo_filter_of_not_mem (k : String) :
    ∀ (l : List WoundReport) (seen : List String), k ∉ seen →
      (dedupGo seen l).filter (keyIs k) = (l.find? (keyIs k)).toList := by
  intro l
  induction l with
  | nil =>
    intro seen _
    rfl
  | cons r rest ih =>
    intro seen h
    unfold dedupGo
    by_cases hr : woundKey r ∈ seen
    · rw [if_pos hr]
      have hk : keyIs k r = false := by
        simp only [keyIs, beq_eq_false_iff_ne, ne_eq]
        intro he
        exact h (he ▸ hr)
      rw [List.find?_cons_of_neg _ (by simp [hk])]
      exact ih seen h
    · rw [if_neg hr]
      by_cases hk : woundKey r = k
      · have hkb : keyIs k r = true := by simp [keyIs, hk]
        rw [List.find?_cons_of_pos _ hkb]
        simp only [List.filter_cons, hkb, if_true]
        have : (dedupGo (woundKey r :: seen) rest).filter (keyIs k) = [] :=
          dedupGo_filter_of_mem k rest _ (hk ▸ List.mem_cons_self _ _)
        rw [this]
        rfl
      · have hkb : keyIs k r = false := by
          simp only [keyIs, beq_eq_false_iff_ne, ne_eq]
          exact hk
        rw [List.find?_cons_of_neg _ (by simp [hkb])]
        simp only [List.filter_cons, hkb, Bool.false_eq_true, if_false]
        refine ih _ ?_
        intro hmem
        rcases List.mem_cons.mp hmem with he | he
        · exact hk he.symm
        · exact h he

lemma find?_max_of_sorted {p : WoundReport → Bool} :
    ∀ {l : List WoundReport} {w : WoundReport}, l.Pairwise laterFirst →
      l.find? p = some w → ∀ x ∈ l, p x = true → x.createdAt ≤ w.createdAt := by
  intro l
  induction l with
  | nil =>
    intro w _ hf
    simp at hf
  | cons a l ih =>
    intro w hp hf x hx hpx
    rcases List.pairwise_cons.mp hp with ⟨ha, hl⟩
    cases hpa : p a with
    | true =>
      rw [List.find?_cons_of_pos _ hpa] at hf
      injection hf with hf
      subst hf
      rcases List.mem_cons.mp hx with rfl | hx
      · exact le_refl _
      · exact ha x hx
    | false =>
      rw [List.find?_cons_of_neg _ (by simp [hpa])] at hf
      rcases List.mem_cons.mp hx with rfl | hx
      · rw [hpx] at hpa
        cases hpa
      · exact ih hl hf x hx hpx

/-- Snapshot of a wound used by the C1 witness (earlier timestamp). -/
def wa1 : WoundReport :=
  ⟨"a", "Jane Doe", "4B", "", "", "Stage 2", false, "Heel",
   "", "", "", "", "", "", "", "", 100⟩

/-- Snapshot of the same wound used by the C1 witness (later). -/
def wa2 : WoundReport :=
  ⟨"b", "jane doe", "4b", "", "", "Stage 3", false, "heel",
   "", "", "", "", "", "", "", "", 200⟩

/-- C1: for every input list and every logical wound identity key, if
some input report carries that key, the deduplication step of
processedReports retains exactly one report of that group, it comes
from the input, and its creation timestamp is the maximum of the
group; every other snapshot of the group is absent from the output. -/
theorem dedupStage_latest_per_group (reports : List WoundReport) (k : String)
    (hne : ∃ r ∈ reports, woundKey r = k) :
    ∃ w, w ∈ reports ∧ woundKey w = k ∧
      (∀ r ∈ reports, woundKey r = k → r.createdAt ≤ w.createdAt) ∧
      (dedupStage reports).filter (keyIs k) = [w] := by
  obtain ⟨r0, hr0, hk0⟩ := hne
  have h1 : ∃ x ∈ sortDesc reports, keyIs k x = true :=
    ⟨r0, mem_sortDesc.mpr hr0, by simp [keyIs, hk0]⟩
  have h2 : ((sortDesc reports).find? (keyIs k)).isSome = true :=
    List.find?_isSome.mpr h1
  obtain ⟨w, hw⟩ := Option.isSome_iff_exists.mp h2
  refine ⟨w, mem_sortDesc.mp (List.mem_of_find?_eq_some hw), ?_, ?_, ?_⟩
  · have := List.find?_some hw
    simpa [keyIs] using this
  · intro r hr hkr
    exact find?_max_of_sorted (sortDesc_sorted reports) hw r
      (mem_sortDesc.mpr hr) (by simp [keyIs, hkr])
  · unfold dedupStage
    rw [dedupGo_filter_of_not_mem k (sortDesc reports) []
      (List.not_mem_nil k), hw]
    rfl

/-- C1 witness: two snapshots of the same wound, differently cased;
the deduplication keeps exactly the one with the larger timestamp. -/
theorem dedupStage_latest_per_group_witness :
    ∃ w, w ∈ [wa1, wa2] ∧ woundKey w = "jane doe|4b|heel" ∧
      (∀ r ∈ [wa1, wa2], woundKey r = "jane doe|4b|heel" →
        r.createdAt ≤ w.createdAt) ∧
      (dedupStage [wa1, wa2]).filter (keyIs "jane doe|4b|heel") = [w] :=
  dedupStage_latest_per_group [wa1, wa2] "jane doe|4b|heel"
    ⟨wa1, by decide, by decide⟩

/-- C2: for every input list, search query and stage filter, the
output of processedReports is sorted by createdAt descending: every
adjacent pair is non-increasing in createdAt. -/
theorem processedReports_sorted_desc (reports : List WoundReport)
    (searchQuery stageFilter : String) :
    List.Chain' (fun a b => b.createdAt ≤ a.createdAt)
      (processedReports reports searchQuery stageFilter) := by
  have h : (processedReports reports searchQuery stageFilter).Pairwise
      laterFirst := sortDesc_sorted _
  exact h.chain'

/-- Report whose label defeats the stage-1 guard as literally claimed:
it contains both a stage-1 spelling and a stage-2 roman spelling. -/
def r3ce : WoundReport :=
  ⟨"c", "x", "1", "", "", "Stage 1 Stage II", false, "y",
   "", "", "", "", "", "", "", "", 5⟩

/-- C3 counterexample: this report's lowercased label contains
"stage i", isMatchingStage classifies it into bucket "1", and yet the
label also contains "ii" (the "stage 1" arabic match fires first), so
the claim as stated is false. -/
theorem stageOne_guard_counterexample :
    jsIncludes (jsToLower r3ce.typeStage) "stage i" = true ∧
    isMatchingStage r3ce "1" = true ∧
    jsIncludes (jsToLower r3ce.typeStage) "ii" = true := by
  decide

/-- C3 amended: for a report whose lowercased label contains "stage i"
but not "stage 1", bucket "1" membership forces the label to contain
no "ii". -/
theorem stageOne_guard_amended (r : WoundReport)
    (h1 : jsIncludes (jsToLower r.typeStage) "stage i" = true)
    (hno : jsIncludes (jsToLower r.typeStage) "stage 1" = false)
    (h2 : isMatchingStage r "1" = true) :
    jsIncludes (jsToLower r.typeStage) "ii" = false := by
  rw [isMatchingStage_one, hno, Bool.false_or, h1, Bool.true_and] at h2
  simpa using h2

/-- Report with a pure roman stage-one label, for the C3 witness. -/
def r3w : WoundReport :=
  ⟨"d", "x", "1", "", "", "Stage I", false, "y",
   "", "", "", "", "", "", "", "", 5⟩

/-- C3 witness: the amended guard applied to a plain "Stage I" label. -/
theorem stageOne_guard_amended_witness :
    jsIncludes (jsToLower r3w.typeStage) "ii" = false :=
  stageOne_guard_amended r3w (by decide) (by decide) (by decide)

/-- Report A of the C4 example. -/
def r4A : WoundReport :=
  ⟨"a4", "Jane Doe", "4B", "", "", "Stage 2", false, "Heel",
   "", "", "", "", "", "", "", "", 100⟩

/-- Report B of the C4 example: same wound, different casing, later. -/
def r4B : WoundReport :=
  ⟨"b4", "jane doe", "4b", "", "", "Stage 3", false, "heel",
   "", "", "", "", "", "", "", "", 200⟩

/-- C4: on the two-report example with empty query and filter "all",
processedReports returns exactly the later snapshot, and that snapshot
classifies as stage "3": wound identity matching is case-insensitive
and trimmed. -/
theorem processedReports_case_example :
    processedReports [r4A, r4B] "" "all" = [r4B] ∧
    isMatchingStage r4B "3" = true := by
  decide

/-- C5: a report whose explicit non-staged flag is set classifies as
"none", whatever its label text. -/
theorem noStage_flag_matches_none (r : WoundReport)
    (h : r.isNoStage = true) :
    isMatchingStage r "none" = true := by
  rw [isMatchingStage_none, h, Bool.true_or]

/-- Flagged report with an arbitrary label, for the C5 witness. -/
def r5w : WoundReport :=
  ⟨"e", "p", "r", "", "", "laceration of unknown depth", true, "s",
   "", "", "", "", "", "", "", "", 1⟩

/-- C5 witness: the flagged report classifies as "none". -/
theorem noStage_flag_matches_none_witness :
    isMatchingStage r5w "none" = true :=
  noStage_flag_matches_none r5w rfl

/-- C6: a report labelled "Stage 2" with the non-staged flag unset
classifies as stage "2" and as "staged", and never as "none". -/
theorem stage2_label_classification (r : WoundReport)
    (h1 : r.typeStage = "Stage 2") (h2 : r.isNoStage = false) :
    isMatchingStage r "2" = true ∧ isMatchingStage r "staged" = true ∧
    isMatchingStage r "none" = false := by
  refine ⟨?_, ?_, ?_⟩
  · rw [isMatchingStage_two, h1]
    decide
  · rw [isMatchingStage_staged, h1, h2]
    decide
  · rw [isMatchingStage_none, h1, h2]
    decide

/-- Plain stage-two report, for the C6 witness. -/
def r6w : WoundReport :=
  ⟨"f", "p", "r", "", "", "Stage 2", false, "s",
   "", "", "", "", "", "", "", "", 1⟩

/-- C6 witness: the classification of a concrete "Stage 2" report. -/
theorem stage2_label_classification_witness :
    isMatchingStage r6w "2" = true ∧ isMatchingStage r6w "staged" = true ∧
    isMatchingStage r6w "none" = false :=
  stage2_label_classification r6w rfl rfl

/-- C7: every report retained by processedReports passes the search
predicate; the predicate holds exactly when the lowercased query is a
substring of the lowercased patient name, room number, facility or
site; the empty query always passes; and query "4b" matches a report
whose room number is "4B". -/
theorem searchPredicate_characterization :
    (∀ (reports : List WoundReport) (q f : String) (r : WoundReport),
        r ∈ processedReports reports q f → queryMatch r q = true) ∧
    (∀ (r : WoundReport) (q : String),
        queryMatch r q = true ↔
          (SubstrOf (jsToLower q) (jsToLower r.patientName) ∨
           SubstrOf (jsToLower q) (jsToLower r.roomNo) ∨
           SubstrOf (jsToLower q) (jsToLower r.facHosp) ∨
           SubstrOf (jsToLower q) (jsToLower r.site))) ∧
    (∀ r : WoundReport, queryMatch r "" = true) ∧
    (∀ r : WoundReport, r.roomNo = "4B" → queryMatch r "4b" = true) := by
  refine ⟨?_, ?_, ?_, ?_⟩
  · intro reports q f r hr
    unfold processedReports at hr
    have h1 := mem_sortDesc.mp hr
    have h2 := (List.mem_filter.mp h1).2
    exact (Bool.and_eq_true _ _ |>.mp h2).1
  · intro r q
    unfold queryMatch
    simp only [Bool.or_eq_true, jsIncludes_iff]
    tauto
  · intro r
    unfold queryMatch
    have h0 : jsToLower "" = "" := rfl
    rw [h0, jsIncludes_empty]
    simp
  · intro r h
    unfold queryMatch
    rw [h]
    have : jsIncludes (jsToLower "4B") (jsToLower "4b") = true := by decide
    rw [this]
    simp

/-- Report with room "4B", for the C7 witness. -/
def r7w : WoundReport :=
  ⟨"g", "p", "4B", "", "", "Stage 2", false, "s",
   "", "", "", "", "", "", "", "", 1⟩

/-- C7 witness: the case-insensitive room-number match at "4b". -/
theorem searchPredicate_characterization_witness :
    queryMatch r7w "4b" = true :=
  searchPredicate_characterization.2.2.2 r7w rfl

/-- Concrete report for the C8 witness. -/
def r8w : WoundReport :=
  ⟨"h", "p", "4", "", "", "Stage 4", false, "s",
   "", "", "", "", "", "", "", "", 7⟩

/-- C8: one resolution pass returns the reports store unchanged, its
output is the pure processedReports function of its inputs, and two
runs on identical inputs produce identical outputs. -/
theorem resolveRun_pure :
    (∀ (reports : List WoundReport) (q f : String),
        (resolveRun reports q f).2 = reports ∧
        (resolveRun reports q f).1 = processedReports reports q f) ∧
    (∀ (l1 l2 : List WoundReport) (q1 q2 f1 f2 : String),
        l1 = l2 → q1 = q2 → f1 = f2 →
        resolveRun l1 q1 f1 = resolveRun l2 q2 f2) := by
  constructor
  · intro reports q f
    exact ⟨rfl, rfl⟩
  · intro l1 l2 q1 q2 f1 f2 h1 h2 h3
    rw [h1, h2, h3]

/-- C8 witness: the pass on a concrete store leaves it unchanged and
repeats identically. -/
theorem resolveRun_pure_witness :
    resolveRun [r8w] "4" "all" = resolveRun [r8w] "4" "all" :=
  resolveRun_pure.2 [r8w] [r8w] "4" "4" "all" "all" rfl rfl rfl

/-- C9: the exact stage buckets overlap.  A label containing
"stage iii" lands in buckets "2" and "3" at once (its "stage ii"
substring fires the bucket-2 test); a label containing "stage iv" and
no "ii" lands in buckets "1" and "4" at once (its "stage i" substring
fires the bucket-1 test). -/
theorem exactStages_overlap :
    (∀ r : WoundReport,
        jsIncludes (jsToLower r.typeStage) "stage iii" = true →
        isMatchingStage r "2" = true ∧ isMatchingStage r "3" = true) ∧
    (∀ r : WoundReport,
        jsIncludes (jsToLower r.typeStage) "stage iv" = true →
        jsIncludes (jsToLower r.typeStage) "ii" = false →
        isMatchingStage r "1" = true ∧ isMatchingStage r "4" = true) := by
  constructor
  · intro r h
    have h2 : jsIncludes (jsToLower r.typeStage) "stage ii" = true :=
      jsIncludes_ext _ "stage iii" "stage ii" [Char.ofNat 105] (by decide) h
    constructor
    · rw [isMatchingStage_two, h2, Bool.or_true]
    · rw [isMatchingStage_three, h, Bool.or_true]
  · intro r h hni
    have h1 : jsIncludes (jsToLower r.typeStage) "stage i" = true :=
      jsIncludes_ext _ "stage iv" "stage i" [Char.ofNat 118] (by decide) h
    constructor
    · rw [isMatchingStage_one, h1, hni]
      simp
    · rw [isMatchingStage_four, h, Bool.or_true]

/-- Roman stage-three report, for the C9 witness. -/
def r9a : WoundReport :=
  ⟨"i1", "p", "r", "", "", "Stage III", false, "s",
   "", "", "", "", "", "", "", "", 1⟩

/-- Roman stage-four report, for the C9 witness. -/
def r9b : WoundReport :=
  ⟨"i2", "p", "r", "", "", "Stage IV", false, "s",
   "", "", "", "", "", "", "", "", 1⟩

/-- C9 witness: "Stage III" is in buckets "2" and "3"; "Stage IV" is
in buckets "1" and "4". -/
theorem exactStages_overlap_witness :
    (isMatchingStage r9a "2" = true ∧ isMatchingStage r9a "3" = true) ∧
    (isMatchingStage r9b "1" = true ∧ isMatchingStage r9b "4" = true) :=
  ⟨exactStages_overlap.1 r9a (by decide),
   exactStages_overlap.2 r9b (by decide) (by decide)⟩

/-- C10: the exact buckets ignore the non-staged flag.  A flagged
report whose lowercased label contains "stage 2" passes bucket "2" and
the "none" filter at once, and fails the "staged" filter. -/
theorem exactStage_ignores_flag (r : WoundReport)
    (h1 : r.isNoStage = true)
    (h2 : jsIncludes (jsToLower r.typeStage) "stage 2" = true) :
    isMatchingStage r "2" = true ∧ isMatchingStage r "none" = true ∧
    isMatchingStage r "staged" = false := by
  refine ⟨?_, ?_, ?_⟩
  · rw [isMatchingStage_two, h2, Bool.true_or]
  · rw [isMatchingStage_none, h1, Bool.true_or]
  · rw [isMatchingStage_staged, h1]
    simp

/-- Flagged report whose label still says "Stage 2", for C10. -/
def r10w : WoundReport :=
  ⟨"j", "p", "r", "", "", "Stage 2", true, "s",
   "", "", "", "", "", "", "", "", 1⟩

/-- C10 witness: the flagged "Stage 2" report passes buckets "2" and
"none" and fails "staged". -/
theorem exactStage_ignores_flag_witness :
    isMatchingStage r10w "2" = true ∧ isMatchingStage r10w "none" = true ∧
    isMatchingStage r10w "staged" = false :=
  exactStage_ignores_flag r10w rfl (by decide)
